import Mathlib

/-
  Verification development for the SectorFlux LLM proxy.

  The repository is a C++ reverse proxy for an Ollama-compatible daemon.
  This file shallowly embeds the subsystems the claims are about:
  the JSON values produced by crow::json::load, the telemetry extractor
  ProxyHandler::extractMetrics, the Database (sqlite tables modelled as
  lists of rows), and the two proxy entry points ProxyHandler::handleRequest
  and ProxyHandler::handleWebSocketRequest.

  Wall-clock instants (std::chrono::steady_clock) are modelled as natural
  numbers counting milliseconds; the values delivered by the upstream
  daemon (chunks, final status or error) are inputs of the embedded
  functions, so that one call of the C++ handler corresponds to one
  evaluation of the Lean function.
-/

namespace SectorFlux

/-! ## JSON values (crow::json::rvalue)

A parsed JSON tree, as produced by `crow::json::load`.  Numbers are kept at
integer precision: `rvalue::i()` converts a JSON number to a 64-bit integer,
which is the only numeric accessor the proxy uses; fractional digits are
consumed by the parser and truncated toward zero, matching that conversion. -/

inductive Json where
  | null
  | jbool (b : Bool)
  | jnum (n : Int)
  | jstr (s : String)
  | jarr (elems : List Json)
  | jobj (members : List (String × Json))
deriving Repr, Inhabited

/-- The brace characters, written via their code points. -/
def lbrace : Char := Char.ofNat 123

def rbrace : Char := Char.ofNat 125

/-- The whitespace set used by the C++ code (" \t\r\n"). -/
def isWs (c : Char) : Bool :=
  c = ' ' || c = '\t' || c = '\r' || c = '\n'

def skipWs : List Char → List Char
  | [] => []
  | c :: cs => if isWs c then skipWs cs else c :: cs

/-- Parse the remainder of a JSON string literal, after the opening quote.
Common escapes are handled; `\u` escapes are out of scope for the bodies
this proxy handles and make the parse fail. -/
def parseStringRest : List Char → Option (String × List Char)
  | [] => none
  | c :: cs =>
    if c = '"' then some ("", cs)
    else if c = '\\' then
      match cs with
      | [] => none
      | e :: cs2 =>
        let ec : Option Char :=
          if e = '"' then some '"'
          else if e = '\\' then some '\\'
          else if e = '/' then some '/'
          else if e = 'n' then some '\n'
          else if e = 't' then some '\t'
          else if e = 'r' then some '\r'
          else if e = 'b' then some (Char.ofNat 8)
          else if e = 'f' then some (Char.ofNat 12)
          else none
        match ec with
        | some d => (parseStringRest cs2).map (fun p => (⟨d :: p.1.data⟩, p.2))
        | none => none
    else (parseStringRest cs).map (fun p => (⟨c :: p.1.data⟩, p.2))

/-- Leading decimal digits of a character list. -/
def takeDigits : List Char → List Char × List Char
  | [] => ([], [])
  | c :: cs =>
    if c.isDigit then
      let p := takeDigits cs
      (c :: p.1, p.2)
    else ([], c :: cs)

def digitsVal (ds : List Char) : Nat :=
  ds.foldl (fun a c => a * 10 + (c.toNat - 48)) 0

/-- Parse a JSON number.  The value is kept at the precision `rvalue::i()`
returns: the integer part, with any fractional digits truncated toward
zero.  Exponent forms are out of scope for the bodies this proxy handles. -/
def parseNumber (cs : List Char) : Option (Int × List Char) :=
  let (neg, cs1) :=
    match cs with
    | '-' :: r => (true, r)
    | _ => (false, cs)
  let (ds, rest) := takeDigits cs1
  if ds.isEmpty then none
  else
    let n : Int := (digitsVal ds : Nat)
    let v : Int := if neg then -n else n
    match rest with
    | '.' :: r =>
      let (fs, r2) := takeDigits r
      if fs.isEmpty then none else some (v, r2)
    | _ => some (v, rest)

mutual

def parseVal (fuel : Nat) (cs : List Char) : Option (Json × List Char) :=
  match fuel with
  | 0 => none
  | fuel' + 1 =>
    match skipWs cs with
    | [] => none
    | c :: rest =>
      if c = '"' then (parseStringRest rest).map (fun p => (Json.jstr p.1, p.2))
      else if c = lbrace then
        match skipWs rest with
        | [] => none
        | d :: r =>
          if d = rbrace then some (Json.jobj [], r)
          else (parseMembers fuel' (d :: r)).map (fun p => (Json.jobj p.1, p.2))
      else if c = '[' then
        match skipWs rest with
        | [] => none
        | d :: r =>
          if d = ']' then some (Json.jarr [], r)
          else (parseItems fuel' (d :: r)).map (fun p => (Json.jarr p.1, p.2))
      else if c = 't' then
        match rest with
        | 'r' :: 'u' :: 'e' :: r => some (Json.jbool true, r)
        | _ => none
      else if c = 'f' then
        match rest with
        | 'a' :: 'l' :: 's' :: 'e' :: r => some (Json.jbool false, r)
        | _ => none
      else if c = 'n' then
        match rest with
        | 'u' :: 'l' :: 'l' :: r => some (Json.null, r)
        | _ => none
      else (parseNumber (c :: rest)).map (fun p => (Json.jnum p.1, p.2))

def parseMembers (fuel : Nat) (cs : List Char) :
    Option (List (String × Json) × List Char) :=
  match fuel with
  | 0 => none
  | fuel' + 1 =>
    match skipWs cs with
    | '"' :: rest =>
      match parseStringRest rest with
      | none => none
      | some (key, r1) =>
        match skipWs r1 with
        | ':' :: r2 =>
          match parseVal fuel' r2 with
          | none => none
          | some (v, r3) =>
            match skipWs r3 with
            | [] => none
            | d :: r4 =>
              if d = ',' then
                (parseMembers fuel' r4).map (fun p => ((key, v) :: p.1, p.2))
              else if d = rbrace then some ([(key, v)], r4)
              else none
        | _ => none
    | _ => none

def parseItems (fuel : Nat) (cs : List Char) : Option (List Json × List Char) :=
  match fuel with
  | 0 => none
  | fuel' + 1 =>
    match parseVal fuel' cs with
    | none => none
    | some (v, r1) =>
      match skipWs r1 with
      | ',' :: r2 => (parseItems fuel' r2).map (fun p => (v :: p.1, p.2))
      | ']' :: r2 => some ([v], r2)
      | _ => none

end

/-- Model of `crow::json::load` over a character list: parse one JSON value and
require that only whitespace follows.  The fuel is generous: each recursive
step of the parser consumes input, so `2*n+2` can never be exhausted on a
list of `n` characters. -/
def crow_json_load_chars (cs : List Char) : Option Json :=
  match parseVal (2 * cs.length + 2) cs with
  | some (j, rest) => if (skipWs rest).isEmpty then some j else none
  | none => none

/-- Model of `crow::json::load` on a string. -/
def crow_json_load (s : String) : Option Json :=
  crow_json_load_chars s.data

def Json.objMembers : Json → List (String × Json)
  | .jobj ms => ms
  | _ => []

/-- Model of `rvalue::has(key)`. -/
def jhas (j : Json) (k : String) : Bool :=
  (j.objMembers.find? (fun m => m.1 == k)).isSome

/-- Model of `rvalue::operator[](key)`, as a partial lookup. -/
def jget (j : Json) (k : String) : Option Json :=
  (j.objMembers.find? (fun m => m.1 == k)).map (fun m => m.2)

/-- Model of `rvalue::i()`: defined on numbers only; on any other type the C++
accessor throws, which the callers model as `none`. -/
def Json.asInt : Json → Option Int
  | .jnum n => some n
  | _ => none

/-- Model of `rvalue::b()`: defined on booleans only. -/
def Json.asBool : Json → Option Bool
  | .jbool b => some b
  | _ => none

/-- Model of `rvalue::s()`: defined on strings only. -/
def Json.asStr : Json → Option String
  | .jstr s => some s
  | _ => none

/-! ## Telemetry extractor (ProxyHandler::extractMetrics)

The C++ function walks the response buffer backward with `rfind('\n')`,
visiting the newline-separated lines from the last to the first; each line
is whitespace-trimmed, and lines that are non-empty and begin with a brace
are handed to `crow::json::load`.  The backward position loop visits
exactly the '\n'-split lines in reverse order (the only line it can skip
is an empty first line when the buffer begins with '\n', and empty lines
are no-ops), so the embedding scans the reversed line list. -/

structure ResponseMetrics where
  prompt_tokens : Int := 0
  completion_tokens : Int := 0
  prompt_eval_duration_ms : Int := 0
  eval_duration_ms : Int := 0
deriving Repr, DecidableEq

def kNanosecondsPerMillisecond : Int := 1000000

/-- The `static_cast<int>` applied to `i()` for the two token counts. -/
def toInt32 (n : Int) : Int :=
  (n + 2 ^ 31) % 2 ^ 32 - 2 ^ 31

/-- Split a character list on '\n' (the lines the `rfind` loop visits). -/
def splitLines : List Char → List (List Char)
  | [] => [[]]
  | c :: cs =>
    match splitLines cs with
    | [] => [[c]]
    | l :: ls => if c = '\n' then [] :: l :: ls else (c :: l) :: ls

/-- Mirror of the `find_last_not_of(" \t\r\n")` step: removal of trailing whitespace. -/
def dropTrailingWs : List Char → List Char
  | [] => []
  | c :: cs =>
    match dropTrailingWs cs with
    | [] => if isWs c then [] else [c]
    | r => c :: r

/-- The trimming performed on each line (`find_first_not_of` /
`find_last_not_of` over " \t\r\n"). -/
def trimChars (l : List Char) : List Char :=
  dropTrailingWs (l.dropWhile isWs)

/-- Outcome of one loop iteration: continue scanning, or leave the loop
(`break` on a summary line, or a C++ exception reaching the enclosing
`catch`, which likewise returns the metrics accumulated so far). -/
inductive LineStep where
  | cont (m : ResponseMetrics)
  | stop (m : ResponseMetrics)
deriving Repr, DecidableEq

/-- One `if (json.has(k)) { target = json[k].i(); found = true; }` block.
`some (some v)`: field present with integer value `v`; `some none`: field
absent; `none`: `.i()` threw on a non-numeric value. -/
def readIntField (j : Json) (k : String) : Option (Option Int) :=
  if jhas j k then
    match (jget j k).bind Json.asInt with
    | some v => some (some v)
    | none => none
  else some none

/-- The body of the loop applied to one successfully parsed line. -/
def processJson (m : ResponseMetrics) (j : Json) : LineStep :=
  match readIntField j "prompt_eval_count" with
  | none => .stop m
  | some o1 =>
    let m1 := match o1 with
      | some v => { m with prompt_tokens := toInt32 v }
      | none => m
    match readIntField j "eval_count" with
    | none => .stop m1
    | some o2 =>
      let m2 := match o2 with
        | some v => { m1 with completion_tokens := toInt32 v }
        | none => m1
      match readIntField j "prompt_eval_duration" with
      | none => .stop m2
      | some o3 =>
        let m3 := match o3 with
          | some v => { m2 with prompt_eval_duration_ms := v.tdiv kNanosecondsPerMillisecond }
          | none => m2
        match readIntField j "eval_duration" with
        | none => .stop m3
        | some o4 =>
          let m4 := match o4 with
            | some v => { m3 with eval_duration_ms := v.tdiv kNanosecondsPerMillisecond }
            | none => m3
          let found := o1.isSome || o2.isSome || o3.isSome || o4.isSome
          if found then .stop m4
          else
            match jget j "done" with
            | some (.jbool b) => if b then .stop m4 else .cont m4
            | some _ => .stop m4
            | none => .cont m4

/-- The body of one scan iteration, applied to the trimmed line: parse it
when it is non-empty and starts with a brace, otherwise keep scanning. -/
def processTrimmed (m : ResponseMetrics) : List Char → LineStep
  | [] => .cont m
  | c :: r =>
    if c = lbrace then
      match crow_json_load_chars (c :: r) with
      | some j => processJson m j
      | none => .cont m
    else .cont m

/-- One iteration of the backward scan on a raw line. -/
def processLine (m : ResponseMetrics) (l : List Char) : LineStep :=
  processTrimmed m (trimChars l)

def scanLines (m : ResponseMetrics) : List (List Char) → ResponseMetrics
  | [] => m
  | l :: ls =>
    match processLine m l with
    | .stop m' => m'
    | .cont m' => scanLines m' ls

/-- Embedding of `ProxyHandler::extractMetrics`. -/
def extractMetrics (response : String) : ResponseMetrics :=
  scanLines {} (splitLines response.data).reverse

/-- Embedding of `ProxyHandler::extractModelFromRequest`: the `model` field of the
request JSON, `"unknown"` when absent or unparsable (`.s()` throwing on a
non-string value lands in the catch-all and also yields `"unknown"`). -/
def extractModelFromRequest (request_body : String) : String :=
  match crow_json_load request_body with
  | some j =>
    if jhas j "model" then
      match (jget j "model").bind Json.asStr with
      | some s => s
      | none => "unknown"
    else "unknown"
  | none => "unknown"

/-! ### Spec-side description of the extractor (for claim C3)

Written from the spec's words: scan the lines from the end of the buffer
backward until a line parses as a JSON object that carries one of the
known telemetry fields or has `"done": true`; read the four fields off
that line with absent fields defaulting to 0 and the nanosecond durations
divided by 1,000,000; all zeros when no such line exists. -/

def telemetryKeys : List String :=
  ["prompt_eval_count", "eval_count", "prompt_eval_duration", "eval_duration"]

def Json.isObj : Json → Bool
  | .jobj _ => true
  | _ => false

def doneTrue (j : Json) : Bool :=
  match jget j "done" with
  | some (.jbool b) => b
  | _ => false

def isSummaryJson (j : Json) : Bool :=
  j.isObj && (telemetryKeys.any (fun k => jhas j k) || doneTrue j)

def isSummaryLine (l : List Char) : Bool :=
  match crow_json_load_chars (trimChars l) with
  | some j => isSummaryJson j
  | none => false

def intFieldOrZero (j : Json) (k : String) : Int :=
  ((jget j k).bind Json.asInt).getD 0

def summaryMetricsJson (j : Json) : ResponseMetrics :=
  { prompt_tokens := intFieldOrZero j "prompt_eval_count",
    completion_tokens := intFieldOrZero j "eval_count",
    prompt_eval_duration_ms :=
      (intFieldOrZero j "prompt_eval_duration").tdiv kNanosecondsPerMillisecond,
    eval_duration_ms :=
      (intFieldOrZero j "eval_duration").tdiv kNanosecondsPerMillisecond }

def summaryMetricsLine (l : List Char) : ResponseMetrics :=
  match crow_json_load_chars (trimChars l) with
  | some j => summaryMetricsJson j
  | none => {}

/-- The extractor as the spec states it. -/
def extractMetricsSpec (response : String) : ResponseMetrics :=
  match (splitLines response.data).reverse.find? isSummaryLine with
  | some l => summaryMetricsLine l
  | none => {}

/-! ### Well-typedness of telemetry lines

The spec speaks of lines whose telemetry fields are integer token counts
and nanosecond durations and whose `done` field is a boolean.  The code
additionally narrows the two token counts through `static_cast<int>`, so
well-typedness asks them to fit in 32 bits. -/

def jnumOk : Option Json → Bool
  | none => true
  | some (Json.jnum _) => true
  | some _ => false

def jnum32Ok : Option Json → Bool
  | none => true
  | some (Json.jnum n) => decide (-2147483648 ≤ n) && decide (n < 2147483648)
  | some _ => false

def jboolOk : Option Json → Bool
  | none => true
  | some (Json.jbool _) => true
  | some _ => false

def jsonWellTyped (j : Json) : Bool :=
  jnum32Ok (jget j "prompt_eval_count") && jnum32Ok (jget j "eval_count") &&
    jnumOk (jget j "prompt_eval_duration") && jnumOk (jget j "eval_duration") &&
    jboolOk (jget j "done")

def lineWellTyped (l : List Char) : Bool :=
  match crow_json_load_chars (trimChars l) with
  | some j => jsonWellTyped j
  | none => true

def bodyWellTyped (response : String) : Bool :=
  (splitLines response.data).all lineWellTyped

/-! ## The Store (class Database, database.cpp)

The two sqlite tables are modelled as lists of rows; `AUTOINCREMENT` is a
counter `next_id` that starts at 1 and never reuses a value.  A closed
(`db_ == nullptr`) handle is `none`. -/

structure CacheRow where
  request_body : String
  response_status : Int
  response_body : String
deriving Repr, DecidableEq

structure LogRow where
  id : Nat
  method : String
  endpoint : String
  model : String
  request_body : String
  response_status : Int
  response_body : String
  duration_ms : Int
  prompt_tokens : Int
  completion_tokens : Int
  prompt_eval_duration_ms : Int
  eval_duration_ms : Int
  ttft_ms : Int
  is_starred : Bool
deriving Repr, DecidableEq

structure Store where
  requests : List LogRow
  next_id : Nat
  cache : List CacheRow
deriving Repr, DecidableEq

structure Database where
  db_ : Option Store
deriving Repr, DecidableEq

/-- The row set produced by `SELECT ... FROM cache WHERE request_body = ?`
(the primary key makes at most one row match; the model returns the first). -/
def cacheFind : List CacheRow → String → Option (Int × String)
  | [], _ => none
  | r :: rs, k =>
    if r.request_body == k then some (r.response_status, r.response_body)
    else cacheFind rs k

/-- Embedding of `Database::getCachedResponse`. -/
def getCachedResponse (d : Database) (request_body : String) : Option (Int × String) :=
  match d.db_ with
  | none => none
  | some s => cacheFind s.cache request_body

/-- Semantics of `INSERT OR REPLACE INTO cache`: replace the row with this primary key,
or append a fresh row. -/
def cacheInsertOrReplace (rows : List CacheRow) (k : String) (st : Int) (b : String) :
    List CacheRow :=
  match rows with
  | [] => [⟨k, st, b⟩]
  | r :: rs =>
    if r.request_body == k then ⟨k, st, b⟩ :: rs
    else r :: cacheInsertOrReplace rs k st b

/-- Embedding of `Database::cacheResponse`. -/
def cacheResponse (d : Database) (request_body : String) (response_status : Int)
    (response_body : String) : Database × Option String :=
  match d.db_ with
  | none => (d, some "Database not initialized")
  | some s =>
    (⟨some { s with
        cache := cacheInsertOrReplace s.cache request_body response_status response_body }⟩,
      none)

/-- The parameters of one `logInteractionAsync`/`logInteractionSync` call. -/
structure LogArgs where
  method : String
  endpoint : String
  model : String
  request_body : String
  response_status : Int
  response_body : String
  duration_ms : Int
  prompt_tokens : Int
  completion_tokens : Int
  prompt_eval_duration_ms : Int
  eval_duration_ms : Int
  ttft_ms : Int
deriving Repr, DecidableEq

def kMaxHistoryEntries : Nat := 100

/-- Insertion sort, descending by `id` (`ORDER BY id DESC`). -/
def insertDescById (r : LogRow) : List LogRow → List LogRow
  | [] => [r]
  | x :: xs => if x.id ≤ r.id then r :: x :: xs else x :: insertDescById r xs

def sortByIdDesc : List LogRow → List LogRow
  | [] => []
  | r :: rs => insertDescById r (sortByIdDesc rs)

/-- Semantics of `DELETE FROM requests WHERE id NOT IN
     (SELECT id FROM requests ORDER BY id DESC LIMIT kMaxHistoryEntries)`. -/
def pruneHistory (rows : List LogRow) : List LogRow :=
  let keep := ((sortByIdDesc rows).take kMaxHistoryEntries).map LogRow.id
  rows.filter (fun r => keep.contains r.id)

/-- The row inserted for one `logInteractionSync` call (`is_starred`
defaults to false in the schema). -/
def logRowOf (s : Store) (a : LogArgs) : LogRow :=
  ⟨s.next_id, a.method, a.endpoint, a.model, a.request_body, a.response_status,
    a.response_body, a.duration_ms, a.prompt_tokens, a.completion_tokens,
    a.prompt_eval_duration_ms, a.eval_duration_ms, a.ttft_ms, false⟩

/-- Embedding of `Database::logInteractionSync`: insert the row, then enforce the
history bound. -/
def logInteractionSync (d : Database) (a : LogArgs) : Database × Option String :=
  match d.db_ with
  | none => (d, some "Database not initialized")
  | some s =>
    (⟨some { s with
        requests := pruneHistory (s.requests ++ [logRowOf s a]),
        next_id := s.next_id + 1 }⟩,
      none)

/-- The contents of the `requests` table behind a handle ([] when closed). -/
def dbRequests (d : Database) : List LogRow :=
  match d.db_ with
  | none => []
  | some s => s.requests

/-- Embedding of `Database::getLogs`: most recent `limit` rows, descending by id. -/
def getLogs (d : Database) (limit : Nat) : Option (List LogRow) :=
  match d.db_ with
  | none => none
  | some s => some ((sortByIdDesc s.requests).take limit)

/-- Embedding of `Database::getLog`: the row with this id, or absent. -/
def getLog (d : Database) (id : Nat) : Option LogRow :=
  match d.db_ with
  | none => none
  | some s => s.requests.find? (fun r => r.id == id)

structure Metrics where
  total_requests : Int
  avg_latency_ms : Rat
  cache_hit_rate : Rat
deriving Repr, DecidableEq

/-- Embedding of `Database::getMetrics`: three scans — `COUNT(*)`, `AVG(duration_ms)`
(NULL on an empty table, read back as 0.0) and `COUNT(*) WHERE
duration_ms = 0`, the last divided by the total only when it is positive.
The doubles of the C++ are modelled as exact rationals. -/
def getMetrics (d : Database) : Metrics :=
  match d.db_ with
  | none => ⟨0, 0, 0⟩
  | some s =>
    let total : Int := s.requests.length
    let avg : Rat :=
      if s.requests.length = 0 then 0
      else (((s.requests.map LogRow.duration_ms).sum : Int) : Rat) / (s.requests.length : Rat)
    let hits : Int := (s.requests.filter (fun r => r.duration_ms == 0)).length
    let rate : Rat := if total > 0 then (hits : Rat) / (total : Rat) else 0
    ⟨total, avg, rate⟩

/-! ## Proxy Engine (ProxyHandler::handleRequest)

One call of the handler, with the environment's contributions — the value
of the `X-SectorFlux-No-Cache` header, the chunks the upstream daemon
delivered to the content receiver (with their arrival instants on the
steady clock, in milliseconds) and the final outcome of `cli.send` — as
inputs.  The asynchronous log submission is modelled as the `LogArgs`
value handed to `logInteractionAsync`. -/

structure HttpRequest where
  body : String
  no_cache_header : String
deriving Repr, DecidableEq

structure Chunk where
  data : String
  time : Nat
deriving Repr, DecidableEq

structure Upstream where
  chunks : List Chunk
  result : Except String Int
deriving Repr

/-- The `ttft_ms` variable after the content receiver has run on every
chunk: `if (ttft_ms == 0) ttft_ms = now - start`. -/
def computeTtft (start : Nat) (ttft : Nat) : List Chunk → Nat
  | [] => ttft
  | c :: cs => computeTtft start (if ttft == 0 then c.time - start else ttft) cs

structure HandleResult where
  code : Int
  body : String
  cache_header : String
  cache_lookups : List String
  log : Option LogArgs
  db : Database
deriving Repr, DecidableEq

/-- The positional argument list of one `logInteractionAsync(...)` call. -/
def mkLogArgs (method endpoint model request_body : String) (response_status : Int)
    (response_body : String) (duration_ms prompt_tokens completion_tokens
    prompt_eval_duration_ms eval_duration_ms ttft_ms : Int) : LogArgs :=
  ⟨method, endpoint, model, request_body, response_status, response_body, duration_ms,
    prompt_tokens, completion_tokens, prompt_eval_duration_ms, eval_duration_ms, ttft_ms⟩

/-- The cache consultation step of `handleRequest`: skip the lookup when
the `X-SectorFlux-No-Cache` header is `"true"` or caching is globally
disabled, otherwise look the request body up. -/
def cacheProbe (cache_enabled : Bool) (db : Database) (req : HttpRequest) :
    Option (Int × String) :=
  if !cache_enabled || req.no_cache_header == "true" then none
  else getCachedResponse db req.body

/-- Embedding of `ProxyHandler::handleRequest`. -/
def handleRequest (cache_enabled : Bool) (db : Database) (req : HttpRequest)
    (target_endpoint : String) (startTime : Nat) (up : Upstream) (endTime : Nat) :
    HandleResult :=
  let request_body_copy := req.body
  let model := extractModelFromRequest request_body_copy
  let skip_cache := !cache_enabled || req.no_cache_header == "true"
  let cached := cacheProbe cache_enabled db req
  match cached with
  | some (st, body) =>
    let metrics := extractMetrics body
    ⟨st, body, "HIT", [request_body_copy],
      some (mkLogArgs "POST" target_endpoint model request_body_copy st body 0
        metrics.prompt_tokens metrics.completion_tokens 0 0 0),
      db⟩
  | none =>
    let lookups := if skip_cache then [] else [request_body_copy]
    let ttft : Nat := computeTtft startTime 0 up.chunks
    let accumulated := String.join (up.chunks.map Chunk.data)
    let duration : Nat := endTime - startTime
    match up.result with
    | .ok status =>
      let db' :=
        if status == 200 && accumulated != "" then
          (cacheResponse db request_body_copy status accumulated).1
        else db
      let metrics := extractMetrics accumulated
      ⟨status, accumulated, "MISS", lookups,
        some (mkLogArgs "POST" target_endpoint model request_body_copy status accumulated
          (duration : Int) metrics.prompt_tokens metrics.completion_tokens
          metrics.prompt_eval_duration_ms metrics.eval_duration_ms (ttft : Int)),
        db'⟩
    | .error reason =>
      let err_body := "Error forwarding request to Ollama: " ++ reason
      let metrics := extractMetrics err_body
      ⟨500, err_body, "MISS", lookups,
        some (mkLogArgs "POST" target_endpoint model request_body_copy 500 err_body
          (duration : Int) metrics.prompt_tokens metrics.completion_tokens
          metrics.prompt_eval_duration_ms metrics.eval_duration_ms (ttft : Int)),
        db⟩

/-! ## Chat session (ProxyHandler::handleWebSocketRequest)

Each chunk records the value the session's atomic `active` flag had when
the content receiver ran for it; `active_at_end` is its value when
`cli.send` returns. -/

structure WsChunk where
  data : String
  time : Nat
  active : Bool
deriving Repr, DecidableEq

structure SinkState where
  ttft : Nat
  full_response : String
  frames : List String
  aborted : Bool
deriving Repr, DecidableEq

/-- The content receiver of the WebSocket path: update `ttft_ms`, then
check the `active` flag — returning false (recorded in `aborted`) stops
the upstream read at that chunk boundary; otherwise accumulate the chunk
and send it as a text frame. -/
def runSink (start : Nat) (st : SinkState) : List WsChunk → SinkState
  | [] => st
  | c :: cs =>
    let t := if st.ttft == 0 then c.time - start else st.ttft
    if !c.active then ⟨t, st.full_response, st.frames, true⟩
    else runSink start ⟨t, st.full_response ++ c.data, st.frames ++ [c.data], false⟩ cs

structure WsResult where
  pre_frames : List String
  stream_frames : List String
  post_frames : List String
  log : Option LogArgs
  db : Database
  aborted : Bool
  served_from_cache : Bool
deriving Repr, DecidableEq

/-- The cache consultation step of the WebSocket path: the raw inbound
message is the key, and only the global flag gates the lookup. -/
def wsCacheProbe (cache_enabled : Bool) (db : Database) (message : String) :
    Option (Int × String) :=
  if cache_enabled then getCachedResponse db message else none

/-- Embedding of `ProxyHandler::handleWebSocketRequest`. -/
def handleWebSocketRequest (cache_enabled : Bool) (db : Database) (message : String)
    (startTime : Nat) (chunks : List WsChunk) (result : Except String Int)
    (active_at_end : Bool) (endTime : Nat) : WsResult :=
  match crow_json_load message with
  | none =>
    ⟨["\x7b\"error\": \"Invalid JSON\"\x7d"], [], [], none, db, false, false⟩
  | some json_req =>
    let model :=
      if jhas json_req "model" then
        match (jget json_req "model").bind Json.asStr with
        | some s => s
        | none => "unknown"
      else "unknown"
    let cached := wsCacheProbe cache_enabled db message
    match cached with
    | some (st, body) =>
      let metrics := extractMetrics body
      ⟨[body], [], [],
        some (mkLogArgs "POST" "/api/chat" model message st body 0
          metrics.prompt_tokens metrics.completion_tokens 0 0 0),
        db, false, true⟩
    | none =>
      let sink := runSink startTime ⟨0, "", [], false⟩ chunks
      if active_at_end then
        match result with
        | .ok status =>
          if status == 200 then
            let duration : Nat := endTime - startTime
            let metrics := extractMetrics sink.full_response
            let db' :=
              if cache_enabled && sink.full_response != "" then
                (cacheResponse db message 200 sink.full_response).1
              else db
            ⟨[], sink.frames, [],
              some (mkLogArgs "POST" "/api/chat" model message 200 sink.full_response
                (duration : Int) metrics.prompt_tokens metrics.completion_tokens
                metrics.prompt_eval_duration_ms metrics.eval_duration_ms
                (sink.ttft : Int)),
              db', sink.aborted, false⟩
          else
            ⟨[], sink.frames, ["\x7b\"error\": \"Failed to connect to Ollama\"\x7d"],
              none, db, sink.aborted, false⟩
        | .error _ =>
          ⟨[], sink.frames, ["\x7b\"error\": \"Failed to connect to Ollama\"\x7d"],
            none, db, sink.aborted, false⟩
      else
        ⟨[], sink.frames, [], none, db, sink.aborted, false⟩

/-! ## Concrete fixtures used by witnesses and counterexamples -/

/-- A freshly initialized store: empty tables, autoincrement at 1. -/
def store_empty : Store := ⟨[], 1, []⟩

def db_empty : Database := ⟨some store_empty⟩

/-- An NDJSON chat body ending in a summary object. -/
def chatBody : String :=
  "\x7b\"resp\":\"a\"\x7d\n\x7b\"done\": true, \"prompt_eval_count\": 5, \"eval_count\": 7, \"prompt_eval_duration\": 200000000, \"eval_duration\": 400000000\x7d"

/-- A store whose cache holds an entry for the body "reqbody". -/
def store_cached : Store := ⟨[], 1, [⟨"reqbody", 200, chatBody⟩]⟩

def db_cached : Database := ⟨some store_cached⟩

/-- A request for "reqbody" carrying the bypass header. -/
def req_nocache : HttpRequest := ⟨"reqbody", "true"⟩

/-- The same request without the bypass header. -/
def req_plain : HttpRequest := ⟨"reqbody", ""⟩

/-- An upstream interaction that delivers one chunk and succeeds with 200. -/
def up_ok : Upstream := ⟨[⟨"chunk1", 5⟩], .ok 200⟩

/-- An upstream interaction that fails after delivering nothing. -/
def up_err : Upstream := ⟨[], .error "Connection timed out"⟩

/-- A store holding two log rows: one cache hit (duration 0), one miss. -/
def store_two : Store :=
  ⟨[⟨1, "POST", "/api/generate", "m", "r1", 200, "b1", 0, 0, 0, 0, 0, 0, false⟩,
    ⟨2, "POST", "/api/generate", "m", "r2", 200, "b2", 30, 0, 0, 0, 0, 7, false⟩],
    3, []⟩

/-- A well-typed NDJSON body with interleaved garbage, for claim C3. -/
def body_c3 : String :=
  "garbage line\n\x7b\"resp\":\"a\"\x7d\n\x7b\"done\": true, \"prompt_eval_count\": 5, \"eval_count\": 7, \"prompt_eval_duration\": 200000000, \"eval_duration\": 400000000\x7d"

/-- Chat message fixture for the WebSocket path. -/
def msg_chat : String := "\x7b\"model\": \"llama3\", \"messages\": []\x7d"

/-- Three upstream chat chunks; the session goes inactive at the third. -/
def ws_chunks : List WsChunk := [⟨"c1", 4, true⟩, ⟨"c2", 6, true⟩, ⟨"c3", 8, false⟩]

/-- The log entry produced by the C9 witness run (`t0 = 2`, one chunk at
instant 5, end at 9). -/
def log_c9 : LogArgs :=
  mkLogArgs "POST" "/api/generate" "unknown" "reqbody" 200 "chunk1" 7 0 0 0 0 3

/-- A log submission used by the C4 witness. -/
def log_args_w : LogArgs :=
  mkLogArgs "POST" "/api/generate" "m" "r3" 200 "b3" 12 0 0 0 0 4

/-! ## Theorems -/

/-- Claim C10: with a null database handle every read returns absent or
all-zero results instead of raising: `getLogs` and `getLog` return absent,
`getCachedResponse` returns absent, and `getMetrics` returns all zeros. -/
theorem uninitialized_reads_absent (limit i : Nat) (k : String) :
    getLogs ⟨none⟩ limit = none ∧ getLog ⟨none⟩ i = none ∧
      getCachedResponse ⟨none⟩ k = none ∧ getMetrics ⟨none⟩ = ⟨0, 0, 0⟩ :=
  ⟨rfl, rfl, rfl, rfl⟩

/-- Looking up the key just written by `cacheInsertOrReplace` yields the
written status and body. -/
theorem cacheFind_insert_self (l : List CacheRow) (k : String) (st : Int) (b : String) :
    cacheFind (cacheInsertOrReplace l k st b) k = some (st, b) := by
  induction l with
  | nil => simp [cacheInsertOrReplace, cacheFind]
  | cons r rs ih =>
    by_cases h : r.request_body == k
    · simp [cacheInsertOrReplace, h, cacheFind]
    · simp [cacheInsertOrReplace, h, cacheFind, ih]

/-- A key matching no row of the cache table is absent. -/
theorem cacheFind_eq_none (l : List CacheRow) (k : String)
    (h : ∀ r ∈ l, (r.request_body == k) = false) :
    cacheFind l k = none := by
  induction l with
  | nil => rfl
  | cons r rs ih =>
    have hr := h r (by simp)
    simp [cacheFind, hr]
    exact ih fun x hx => h x (by simp [hx])

/-- Claim C8: `cacheResponse` followed by `getCachedResponse` on the same
key returns the stored pair; a second `cacheResponse` on the same key
replaces the entry (last write wins); a key never stored is absent. -/
theorem cache_put_lookup (s : Store) (k : String) (st st2 : Int) (b b2 : String)
    (hfresh : ∀ r ∈ s.cache, (r.request_body == k) = false) :
    getCachedResponse ⟨some s⟩ k = none ∧
      getCachedResponse (cacheResponse ⟨some s⟩ k st b).1 k = some (st, b) ∧
      getCachedResponse (cacheResponse (cacheResponse ⟨some s⟩ k st b).1 k st2 b2).1 k =
        some (st2, b2) := by
  refine ⟨?_, ?_, ?_⟩
  · exact cacheFind_eq_none _ _ hfresh
  · simpa [getCachedResponse, cacheResponse] using cacheFind_insert_self s.cache k st b
  · simpa [getCachedResponse, cacheResponse] using
      cacheFind_insert_self (cacheInsertOrReplace s.cache k st b) k st2 b2

/-- Witness for C8 at a concrete store and keys. -/
theorem cache_put_lookup_witness :
    getCachedResponse ⟨some store_cached⟩ "newkey" = none ∧
      getCachedResponse (cacheResponse ⟨some store_cached⟩ "newkey" 200 "v1").1 "newkey" =
        some (200, "v1") ∧
      getCachedResponse
          (cacheResponse (cacheResponse ⟨some store_cached⟩ "newkey" 200 "v1").1
            "newkey" 201 "v2").1 "newkey" =
        some (201, "v2") :=
  cache_put_lookup store_cached "newkey" 200 201 "v1" "v2" (by decide)

/-- Claim C7: `getMetrics` returns the row count, the arithmetic mean of
`duration_ms` over all rows (zero-duration cache hits included; 0 when the
table is empty), and the fraction of rows with `duration_ms = 0` (0 when
the table is empty). -/
theorem getMetrics_matches_table (s : Store) :
    (getMetrics ⟨some s⟩).total_requests = (s.requests.length : Int) ∧
      (getMetrics ⟨some s⟩).avg_latency_ms =
        (if s.requests.length = 0 then 0
          else (((s.requests.map LogRow.duration_ms).sum : Int) : Rat) /
            (s.requests.length : Rat)) ∧
      (s.requests.length ≠ 0 →
        (getMetrics ⟨some s⟩).avg_latency_ms * (s.requests.length : Rat) =
          (((s.requests.map LogRow.duration_ms).sum : Int) : Rat)) ∧
      (getMetrics ⟨some s⟩).cache_hit_rate =
        (if s.requests.length = 0 then 0
          else ((s.requests.filter (fun r => r.duration_ms == 0)).length : Rat) /
            (s.requests.length : Rat)) := by
  refine ⟨rfl, rfl, ?_, ?_⟩
  · intro h
    have hne : ((s.requests.length : Nat) : Rat) ≠ 0 := by
      exact_mod_cast h
    show (if s.requests.length = 0 then (0 : Rat)
      else (((s.requests.map LogRow.duration_ms).sum : Int) : Rat) /
        (s.requests.length : Rat)) * (s.requests.length : Rat) = _
    rw [if_neg h, div_mul_cancel₀ _ hne]
  · show (if ((s.requests.length : Nat) : Int) > 0 then
        (((s.requests.filter (fun r => r.duration_ms == 0)).length : Int) : Rat) /
          (((s.requests.length : Nat) : Int) : Rat)
      else 0) = _
    rcases Nat.eq_zero_or_pos s.requests.length with h | h
    · simp [h]
    · rw [if_pos (by exact_mod_cast h), if_neg (Nat.pos_iff_ne_zero.mp h)]
      push_cast
      ring

/-- Witness for C7 at a two-row store. -/
theorem getMetrics_matches_table_witness :
    (getMetrics ⟨some store_two⟩).total_requests = (store_two.requests.length : Int) ∧
      (getMetrics ⟨some store_two⟩).avg_latency_ms * (store_two.requests.length : Rat) =
        (((store_two.requests.map LogRow.duration_ms).sum : Int) : Rat) :=
  ⟨(getMetrics_matches_table store_two).1,
    (getMetrics_matches_table store_two).2.2.1 (by decide)⟩

/-- Counterexample to claim C1 as stated: a call carrying
`X-SectorFlux-No-Cache: true` issues no cache lookup, yet when the
upstream replies 200 with a non-empty body the cache table gains an entry
for the request body — its contents after the call differ from before. -/
theorem nocache_still_updates_cache :
    (handleRequest true db_empty req_nocache "/api/generate" 0 up_ok 7).cache_lookups = [] ∧
      getCachedResponse db_empty "reqbody" = none ∧
      getCachedResponse (handleRequest true db_empty req_nocache "/api/generate" 0 up_ok 7).db
          "reqbody" =
        some (200, "chunk1") := by
  decide

/-- Claim C1 (amended): a bypassed call — `X-SectorFlux-No-Cache: true`
header, or the global cache flag false — issues no cache lookup; the cache
table is nevertheless still updated with this request's entry when the
upstream result is status 200 with a non-empty accumulated body, and is
unchanged otherwise (only the lookup is suppressed by the bypass). -/
theorem nocache_skips_lookup_only (ce : Bool) (db : Database) (req : HttpRequest)
    (ep : String) (t0 : Nat) (up : Upstream) (t1 : Nat)
    (hskip : ce = false ∨ req.no_cache_header = "true") :
    (handleRequest ce db req ep t0 up t1).cache_lookups = [] ∧
      (handleRequest ce db req ep t0 up t1).db =
        (match up.result with
          | .ok status =>
            if status == 200 && String.join (up.chunks.map Chunk.data) != "" then
              (cacheResponse db req.body status (String.join (up.chunks.map Chunk.data))).1
            else db
          | .error _ => db) := by
  obtain ⟨chunks, res⟩ := up
  have hsc : (!ce || req.no_cache_header == "true") = true := by
    rcases hskip with h | h <;> simp [h]
  cases res with
  | ok status => constructor <;> simp [handleRequest, cacheProbe, hsc]
  | error reason => constructor <;> simp [handleRequest, cacheProbe, hsc]

/-- Witness for the amended C1 at a concrete bypassed call. -/
theorem nocache_skips_lookup_only_witness :
    (handleRequest true db_empty req_nocache "/api/generate" 0 up_ok 7).cache_lookups = [] ∧
      (handleRequest true db_empty req_nocache "/api/generate" 0 up_ok 7).db =
        (match up_ok.result with
          | .ok status =>
            if status == 200 && String.join (up_ok.chunks.map Chunk.data) != "" then
              (cacheResponse db_empty req_nocache.body status
                (String.join (up_ok.chunks.map Chunk.data))).1
            else db_empty
          | .error _ => db_empty) :=
  nocache_skips_lookup_only true db_empty req_nocache "/api/generate" 0 up_ok 7 (Or.inr rfl)

/-- Counterexample to claim C2 as stated: a non-cached forward whose start
and end instants fall in the same millisecond submits a log entry with
`duration_ms = 0` although it was not served from the cache. -/
theorem fast_miss_logs_zero_duration :
    (handleRequest true db_empty req_plain "/api/generate" 5 up_ok 5).cache_header = "MISS" ∧
      (handleRequest true db_empty req_plain "/api/generate" 5 up_ok 5).log.map
          LogArgs.duration_ms =
        some 0 := by
  decide

/-- Claim C2 (amended): every cache-served entry is submitted with
`duration_ms = 0`; every non-cached entry (HTTP or WebSocket path) is
submitted with `duration_ms = end − start`, which is nonnegative but is
itself 0 whenever the call completes within one millisecond — so
`duration_ms = 0` does not imply the entry was cache-served. -/
theorem duration_zero_semantics :
    (∀ (ce : Bool) (db : Database) (req : HttpRequest) (ep : String) (t0 : Nat)
        (up : Upstream) (t1 : Nat),
      ((handleRequest ce db req ep t0 up t1).cache_header = "HIT" →
        (handleRequest ce db req ep t0 up t1).log.map LogArgs.duration_ms = some 0) ∧
      ((handleRequest ce db req ep t0 up t1).cache_header = "MISS" →
        ∀ l, (handleRequest ce db req ep t0 up t1).log = some l →
          l.duration_ms = ((t1 - t0 : Nat) : Int))) ∧
    (∀ (ce : Bool) (db : Database) (msg : String) (t0 : Nat) (chunks : List WsChunk)
        (res : Except String Int) (aae : Bool) (t1 : Nat),
      ((handleWebSocketRequest ce db msg t0 chunks res aae t1).served_from_cache = true →
        (handleWebSocketRequest ce db msg t0 chunks res aae t1).log.map
          LogArgs.duration_ms = some 0) ∧
      ((handleWebSocketRequest ce db msg t0 chunks res aae t1).served_from_cache = false →
        ∀ l, (handleWebSocketRequest ce db msg t0 chunks res aae t1).log = some l →
          l.duration_ms = ((t1 - t0 : Nat) : Int))) := by
  constructor
  · intro ce db req ep t0 up t1
    obtain ⟨chunks, res⟩ := up
    cases hpr : cacheProbe ce db req with
    | some p =>
      obtain ⟨st, body⟩ := p
      constructor
      · intro _
        simp [handleRequest, hpr, mkLogArgs]
      · intro hmiss
        simp [handleRequest, hpr] at hmiss
    | none =>
      constructor
      · intro hhit
        cases res <;> simp [handleRequest, hpr] at hhit
      · intro _ l hl
        cases res with
        | ok status =>
          simp [handleRequest, hpr, mkLogArgs] at hl
          simp [← hl, mkLogArgs]
        | error e =>
          simp [handleRequest, hpr, mkLogArgs] at hl
          simp [← hl, mkLogArgs]
  · intro ce db msg t0 chunks res aae t1
    cases hj : crow_json_load msg with
    | none =>
      constructor
      · intro hsc
        simp [handleWebSocketRequest, hj] at hsc
      · intro _ l hl
        simp [handleWebSocketRequest, hj] at hl
    | some j =>
      cases hpr : wsCacheProbe ce db msg with
      | some p =>
        obtain ⟨st, body⟩ := p
        constructor
        · intro _
          simp [handleWebSocketRequest, hj, hpr, mkLogArgs]
        · intro hsc
          simp [handleWebSocketRequest, hj, hpr] at hsc
      | none =>
        constructor
        · intro hsc
          cases aae with
          | false => simp [handleWebSocketRequest, hj, hpr] at hsc
          | true =>
            cases res with
            | ok status =>
              simp [handleWebSocketRequest, hj, hpr] at hsc
              split at hsc <;> simp_all
            | error e => simp [handleWebSocketRequest, hj, hpr] at hsc
        · intro _ l hl
          cases aae with
          | false => simp [handleWebSocketRequest, hj, hpr] at hl
          | true =>
            cases res with
            | error e => simp [handleWebSocketRequest, hj, hpr] at hl
            | ok status =>
              by_cases h200 : status == 200
              · simp [handleWebSocketRequest, hj, hpr, h200, mkLogArgs] at hl
                simp [← hl, mkLogArgs]
              · simp [handleWebSocketRequest, hj, hpr, h200] at hl

/-- Witness for the amended C2: a concrete cache hit logs duration 0. -/
theorem duration_zero_semantics_witness :
    (handleRequest true db_cached req_plain "/api/generate" 3 up_ok 9).log.map
        LogArgs.duration_ms =
      some 0 :=
  (duration_zero_semantics.1 true db_cached req_plain "/api/generate" 3 up_ok 9).1 (by decide)

/-- Claim C5: when the upstream send fails, the client response has status
500 and the diagnostic body, and a log entry with that status, that body
and the observed duration is still submitted. -/
theorem upstream_error_500 (ce : Bool) (db : Database) (req : HttpRequest) (ep : String)
    (t0 : Nat) (up : Upstream) (t1 : Nat) (reason : String)
    (herr : up.result = .error reason)
    (hmiss : (handleRequest ce db req ep t0 up t1).cache_header = "MISS") :
    (handleRequest ce db req ep t0 up t1).code = 500 ∧
      (handleRequest ce db req ep t0 up t1).body =
        "Error forwarding request to Ollama: " ++ reason ∧
      ∃ l, (handleRequest ce db req ep t0 up t1).log = some l ∧
        l.response_status = 500 ∧
        l.response_body = "Error forwarding request to Ollama: " ++ reason ∧
        l.duration_ms = ((t1 - t0 : Nat) : Int) := by
  cases hpr : cacheProbe ce db req with
  | some p =>
    obtain ⟨st, body⟩ := p
    simp [handleRequest, hpr] at hmiss
  | none =>
    simp only [handleRequest, hpr, herr, mkLogArgs]
    exact ⟨trivial, trivial, _, rfl, rfl, rfl, rfl⟩

/-- The `ttft_ms` accumulator never exceeds `end − start` when every chunk
arrives no later than the end instant. -/
theorem computeTtft_le (start t1 : Nat) (acc : Nat) (cs : List Chunk)
    (hacc : acc ≤ t1 - start) (h : ∀ c ∈ cs, c.time ≤ t1) :
    computeTtft start acc cs ≤ t1 - start := by
  induction cs generalizing acc with
  | nil => simpa [computeTtft] using hacc
  | cons c cs ih =>
    simp only [computeTtft]
    apply ih
    · by_cases hz : acc == 0
      · simpa [hz] using Nat.sub_le_sub_right (h c (by simp)) start
      · simpa [hz] using hacc
    · intro x hx
      exact h x (by simp [hx])

/-- Claim C9: every log entry produced by the non-cached forward path of
`handleRequest` satisfies `0 ≤ ttft_ms ≤ duration_ms` (both measured from
the same start instant), and `ttft_ms` stays 0 when no chunk arrives. -/
theorem ttft_bounds (ce : Bool) (db : Database) (req : HttpRequest) (ep : String)
    (t0 : Nat) (up : Upstream) (t1 : Nat)
    (hchunks : ∀ c ∈ up.chunks, c.time ≤ t1)
    (hmiss : (handleRequest ce db req ep t0 up t1).cache_header = "MISS") :
    ∀ l, (handleRequest ce db req ep t0 up t1).log = some l →
      0 ≤ l.ttft_ms ∧ l.ttft_ms ≤ l.duration_ms ∧ (up.chunks = [] → l.ttft_ms = 0) := by
  obtain ⟨chunks, res⟩ := up
  intro l hl
  have hle : computeTtft t0 0 chunks ≤ t1 - t0 :=
    computeTtft_le t0 t1 0 chunks (Nat.zero_le _) hchunks
  cases hpr : cacheProbe ce db req with
  | some p =>
    obtain ⟨st, body⟩ := p
    simp [handleRequest, hpr] at hmiss
  | none =>
    cases res with
    | ok status =>
      simp [handleRequest, hpr, mkLogArgs] at hl
      refine ⟨?_, ?_, ?_⟩
      · simp [← hl, mkLogArgs, Int.natCast_nonneg]
      · have h1 : l.ttft_ms = ((computeTtft t0 0 chunks : Nat) : Int) := by simp [← hl]
        have h2 : l.duration_ms = ((t1 - t0 : Nat) : Int) := by simp [← hl]
        rw [h1, h2]
        exact_mod_cast hle
      · intro hnil
        simp only [] at hnil
        simp [← hl, mkLogArgs, hnil, computeTtft]
    | error reason =>
      simp [handleRequest, hpr, mkLogArgs] at hl
      refine ⟨?_, ?_, ?_⟩
      · simp [← hl, mkLogArgs, Int.natCast_nonneg]
      · have h1 : l.ttft_ms = ((computeTtft t0 0 chunks : Nat) : Int) := by simp [← hl]
        have h2 : l.duration_ms = ((t1 - t0 : Nat) : Int) := by simp [← hl]
        rw [h1, h2]
        exact_mod_cast hle
      · intro hnil
        simp only [] at hnil
        simp [← hl, mkLogArgs, hnil, computeTtft]

/-- Witness for C9: the concrete forward run behind `log_c9`. -/
theorem ttft_bounds_witness :
    0 ≤ log_c9.ttft_ms ∧ log_c9.ttft_ms ≤ log_c9.duration_ms :=
  ⟨(ttft_bounds true db_empty req_plain "/api/generate" 2 up_ok 9 (by decide)
      (by decide) log_c9 (by decide)).1,
    (ttft_bounds true db_empty req_plain "/api/generate" 2 up_ok 9 (by decide)
      (by decide) log_c9 (by decide)).2.1⟩

/-- The sink forwards and accumulates exactly the chunks that arrive while
the session is active, and reports an abort exactly when a chunk saw the
flag down. -/
theorem runSink_spec (start : Nat) (cs : List WsChunk) (st : SinkState)
    (h : st.aborted = false) :
    (runSink start st cs).frames =
        st.frames ++ (cs.takeWhile WsChunk.active).map WsChunk.data ∧
      (runSink start st cs).aborted = !cs.all WsChunk.active := by
  induction cs generalizing st with
  | nil =>
    simp [runSink, h]
  | cons c cs ih =>
    by_cases hc : c.active
    · have hstep : runSink start st (c :: cs) =
          runSink start ⟨if st.ttft == 0 then c.time - start else st.ttft,
            st.full_response ++ c.data, st.frames ++ [c.data], false⟩ cs := by
        simp [runSink, hc]
      rw [hstep]
      have hrec := ih ⟨if st.ttft == 0 then c.time - start else st.ttft,
        st.full_response ++ c.data, st.frames ++ [c.data], false⟩ rfl
      rw [hrec.1, hrec.2]
      simp [List.takeWhile_cons, hc]
    · simp [runSink, hc, List.takeWhile_cons, h]

/-- Claim C6: in `handleWebSocketRequest`, a chunk arriving while the
session's `active` flag is false makes the sink return false, stopping the
upstream read at that chunk boundary (frames are sent exactly for the
chunks of the active prefix); and when the flag is false at the instant
the upstream call returns, no log entry is submitted, the store is
unchanged (no cache write), and no further frame is sent for the turn. -/
theorem ws_cancellation (ce : Bool) (db : Database) (msg : String) (t0 : Nat)
    (chunks : List WsChunk) (res : Except String Int) (aae : Bool) (t1 : Nat)
    (hjson : (crow_json_load msg).isSome = true)
    (hmiss : wsCacheProbe ce db msg = none) :
    (handleWebSocketRequest ce db msg t0 chunks res aae t1).stream_frames =
        (chunks.takeWhile WsChunk.active).map WsChunk.data ∧
      (handleWebSocketRequest ce db msg t0 chunks res aae t1).aborted =
        !chunks.all WsChunk.active ∧
      (aae = false →
        (handleWebSocketRequest ce db msg t0 chunks res aae t1).log = none ∧
        (handleWebSocketRequest ce db msg t0 chunks res aae t1).db = db ∧
        (handleWebSocketRequest ce db msg t0 chunks res aae t1).post_frames = []) := by
  have hs := runSink_spec t0 chunks ⟨0, "", [], false⟩ rfl
  cases hj : crow_json_load msg with
  | none => rw [hj] at hjson; simp at hjson
  | some j =>
    refine ⟨?_, ?_, ?_⟩
    · cases aae with
      | false => simpa [handleWebSocketRequest, hj, hmiss] using hs.1
      | true =>
        cases res with
        | ok status =>
          by_cases h200 : status == 200
          · simpa [handleWebSocketRequest, hj, hmiss, h200] using hs.1
          · simpa [handleWebSocketRequest, hj, hmiss, h200] using hs.1
        | error e => simpa [handleWebSocketRequest, hj, hmiss] using hs.1
    · cases aae with
      | false => simpa [handleWebSocketRequest, hj, hmiss] using hs.2
      | true =>
        cases res with
        | ok status =>
          by_cases h200 : status == 200
          · simpa [handleWebSocketRequest, hj, hmiss, h200] using hs.2
          · simpa [handleWebSocketRequest, hj, hmiss, h200] using hs.2
        | error e => simpa [handleWebSocketRequest, hj, hmiss] using hs.2
    · intro haae
      subst haae
      exact ⟨by simp [handleWebSocketRequest, hj, hmiss],
        by simp [handleWebSocketRequest, hj, hmiss],
        by simp [handleWebSocketRequest, hj, hmiss]⟩

/-- Witness for C6: a session cancelled at the third chunk. -/
theorem ws_cancellation_witness :
    (handleWebSocketRequest true db_empty msg_chat 2 ws_chunks (.error "Canceled")
        false 9).stream_frames =
      (ws_chunks.takeWhile WsChunk.active).map WsChunk.data ∧
      (handleWebSocketRequest true db_empty msg_chat 2 ws_chunks (.error "Canceled")
          false 9).log = none :=
  ⟨(ws_cancellation true db_empty msg_chat 2 ws_chunks (.error "Canceled") false 9
      (by decide) (by decide)).1,
    ((ws_cancellation true db_empty msg_chat 2 ws_chunks (.error "Canceled") false 9
      (by decide) (by decide)).2.2 rfl).1⟩

/-- The `has` accessor answers whether the lookup succeeds. -/
theorem jhas_eq (j : Json) (k : String) : jhas j k = (jget j k).isSome := by
  simp [jhas, jget]

theorem jnumOk_of_32 (o : Option Json) (h : jnum32Ok o = true) : jnumOk o = true := by
  rcases o with _ | v
  · rfl
  · cases v <;> simp_all [jnum32Ok, jnumOk]

/-- The 32-bit narrowing is the identity inside the int range. -/
theorem toInt32_eq_self (n : Int) (h1 : -2147483648 ≤ n) (h2 : n < 2147483648) :
    toInt32 n = n := by
  unfold toInt32
  omega

/-- With a well-typed field, the receiver block never throws and reads the
integer value of the field (absent fields read nothing). -/
theorem readIntField_of_ok (j : Json) (k : String) (h : jnumOk (jget j k) = true) :
    readIntField j k = some ((jget j k).bind Json.asInt) := by
  rcases hg : jget j k with _ | v
  · simp [readIntField, jhas_eq, hg]
  · cases v <;> simp_all [readIntField, jhas_eq, hg, jnumOk, Json.asInt]

/-- With a well-typed field, the read value exists exactly when the field
is present. -/
theorem bind_asInt_isSome (o : Option Json) (h : jnumOk o = true) :
    (o.bind Json.asInt).isSome = o.isSome := by
  rcases o with _ | v
  · rfl
  · cases v <;> simp_all [jnumOk, Json.asInt]

theorem jnum32_bound (o : Option Json) (h : jnum32Ok o = true) (n : Int)
    (hn : o.bind Json.asInt = some n) : toInt32 n = n := by
  rcases o with _ | v
  · simp at hn
  · cases v <;> simp_all [jnum32Ok, Json.asInt]
    exact toInt32_eq_self n h.1 h.2

/-- A non-object carries no members, so every lookup fails. -/
theorem jget_non_obj (j : Json) (h : j.isObj = false) (k : String) : jget j k = none := by
  cases j <;> simp_all [jget, Json.objMembers, Json.isObj]

/-- The loop body on a parsed well-typed line: it stops exactly on a
summary object and then carries that line's metrics. -/
theorem processJson_eq (j : Json) (hwt : jsonWellTyped j = true) :
    processJson {} j =
      (if isSummaryJson j then LineStep.stop (summaryMetricsJson j)
        else LineStep.cont {}) := by
  have hw := hwt
  unfold jsonWellTyped at hw
  simp only [Bool.and_eq_true] at hw
  obtain ⟨⟨⟨⟨h1, h2⟩, h3⟩, h4⟩, h5⟩ := hw
  have hr1 := readIntField_of_ok j "prompt_eval_count" (jnumOk_of_32 _ h1)
  have hr2 := readIntField_of_ok j "eval_count" (jnumOk_of_32 _ h2)
  have hr3 := readIntField_of_ok j "prompt_eval_duration" h3
  have hr4 := readIntField_of_ok j "eval_duration" h4
  have hb1 := bind_asInt_isSome _ (jnumOk_of_32 _ h1)
  have hb2 := bind_asInt_isSome _ (jnumOk_of_32 _ h2)
  have hb3 := bind_asInt_isSome _ h3
  have hb4 := bind_asInt_isSome _ h4
  have hbnd1 : ∀ n, (jget j "prompt_eval_count").bind Json.asInt = some n →
      toInt32 n = n := fun n hn => jnum32_bound _ h1 n hn
  have hbnd2 : ∀ n, (jget j "eval_count").bind Json.asInt = some n →
      toInt32 n = n := fun n hn => jnum32_bound _ h2 n hn
  have hdone : jget j "done" = none ∨ ∃ b, jget j "done" = some (Json.jbool b) := by
    rcases hg : jget j "done" with _ | v
    · exact Or.inl rfl
    · rw [hg] at h5
      cases v <;> simp [jboolOk] at h5
      exact Or.inr ⟨_, rfl⟩
  by_cases hobj : j.isObj = true
  · simp only [processJson, hr1, hr2, hr3, hr4]
    rcases ho1 : (jget j "prompt_eval_count").bind Json.asInt with _ | n1 <;>
      rcases ho2 : (jget j "eval_count").bind Json.asInt with _ | n2 <;>
      rcases ho3 : (jget j "prompt_eval_duration").bind Json.asInt with _ | n3 <;>
      rcases ho4 : (jget j "eval_duration").bind Json.asInt with _ | n4 <;>
      rcases hdone with hd | ⟨b, hd⟩ <;> (try cases b) <;>
      simp_all [isSummaryJson, telemetryKeys, doneTrue, jhas_eq, summaryMetricsJson,
        intFieldOrZero]
  · have hobj2 : j.isObj = false := by simpa using hobj
    have hnone : ∀ k, jget j k = none := jget_non_obj j hobj2
    simp [processJson, readIntField, jhas_eq, hnone, isSummaryJson, hobj2, doneTrue]

/-- Dropping leading whitespace never leaves whitespace at the head. -/
theorem dropWhile_isWs_head (l : List Char) (c : Char) (r : List Char)
    (h : l.dropWhile isWs = c :: r) : isWs c = false := by
  induction l with
  | nil => simp at h
  | cons a as ih =>
    by_cases ha : isWs a = true
    · rw [List.dropWhile_cons_of_pos ha] at h
      exact ih h
    · rw [List.dropWhile_cons_of_neg (by simp [ha])] at h
      cases h
      simpa using ha

/-- Removing trailing characters preserves the head when anything is left. -/
theorem dropTrailingWs_head (x : List Char) (c : Char) (r : List Char)
    (h : dropTrailingWs x = c :: r) : ∃ r2, x = c :: r2 := by
  cases x with
  | nil => simp [dropTrailingWs] at h
  | cons a as =>
    rw [dropTrailingWs] at h
    rcases hd : dropTrailingWs as with _ | ⟨b, bs⟩ <;> rw [hd] at h
    · by_cases ha : isWs a = true <;> simp [ha] at h
      exact ⟨as, by rw [h.1]⟩
    · exact ⟨as, by injection h with h1 _; rw [h1]⟩

/-- The head of a trimmed line is never whitespace. -/
theorem trimChars_head (l : List Char) (c : Char) (r : List Char)
    (h : trimChars l = c :: r) : isWs c = false := by
  unfold trimChars at h
  obtain ⟨r2, h2⟩ := dropTrailingWs_head _ _ _ h
  exact dropWhile_isWs_head l c r2 h2

theorem skipWs_cons_of_not_ws (c : Char) (r : List Char) (h : isWs c = false) :
    skipWs (c :: r) = c :: r := by
  simp [skipWs, h]

/-- The parser yields an object only when the first non-whitespace
character is an opening brace. -/
theorem parseVal_jobj_head (f : Nat) (cs : List Char) (ms : List (String × Json))
    (r : List Char) (h : parseVal f cs = some (Json.jobj ms, r)) :
    ∃ rest, skipWs cs = lbrace :: rest := by
  match f with
  | 0 => simp [parseVal] at h
  | Nat.succ f2 =>
    rw [parseVal] at h
    cases hsk : skipWs cs with
    | nil => rw [hsk] at h; simp at h
    | cons c rest =>
      rw [hsk] at h
      by_cases h2 : c = lbrace
      · exact ⟨rest, by rw [← h2]⟩
      · exfalso
        simp only [] at h
        split_ifs at h
        all_goals
          first
          | simp [Option.map_eq_some'] at h
          | (split at h <;>
              first
              | simp at h
              | (split_ifs at h <;> simp [Option.map_eq_some'] at h))

/-- The loader yields an object only when the first non-whitespace
character is an opening brace. -/
theorem load_jobj_head (cs : List Char) (ms : List (String × Json))
    (h : crow_json_load_chars cs = some (Json.jobj ms)) :
    ∃ rest, skipWs cs = lbrace :: rest := by
  unfold crow_json_load_chars at h
  rcases hp : parseVal (2 * cs.length + 2) cs with _ | ⟨j, rest⟩ <;> rw [hp] at h
  · simp at h
  · by_cases he : (skipWs rest).isEmpty <;> simp [he] at h
    subst h
    exact parseVal_jobj_head _ _ _ _ hp

/-- One backward-scan iteration on a well-typed raw line agrees with the
spec's description: stop exactly on a summary line. -/
theorem processLine_eq (l : List Char) (hwt : lineWellTyped l = true) :
    processLine {} l =
      (if isSummaryLine l then LineStep.stop (summaryMetricsLine l)
        else LineStep.cont {}) := by
  unfold processLine isSummaryLine summaryMetricsLine
  unfold lineWellTyped at hwt
  cases ht : trimChars l with
  | nil =>
    rw [ht] at hwt
    have h0 : crow_json_load_chars ([] : List Char) = none := rfl
    rw [h0]
    rfl
  | cons c r =>
    rw [ht] at hwt
    have hcw : isWs c = false := trimChars_head l c r ht
    simp only [processTrimmed]
    by_cases hc : c = lbrace
    · rw [if_pos hc]
      cases hl : crow_json_load_chars (c :: r) with
      | none => rfl
      | some j =>
        rw [hl] at hwt
        exact processJson_eq j hwt
    · rw [if_neg hc]
      cases hl : crow_json_load_chars (c :: r) with
      | none => rfl
      | some j =>
        cases j with
        | jobj ms =>
          exfalso
          obtain ⟨rest, hrest⟩ := load_jobj_head _ _ hl
          rw [skipWs_cons_of_not_ws c r hcw] at hrest
          exact hc (by injection hrest)
        | null => simp [isSummaryJson, Json.isObj]
        | jbool b => simp [isSummaryJson, Json.isObj]
        | jnum n => simp [isSummaryJson, Json.isObj]
        | jstr s => simp [isSummaryJson, Json.isObj]
        | jarr xs => simp [isSummaryJson, Json.isObj]

/-- The backward scan with early exit equals "first summary line from the
end decides everything". -/
theorem scanLines_eq_find (ls : List (List Char)) (hwt : ∀ l ∈ ls, lineWellTyped l = true) :
    scanLines {} ls =
      (match ls.find? isSummaryLine with
        | some l => summaryMetricsLine l
        | none => {}) := by
  induction ls with
  | nil => rfl
  | cons l ls ih =>
    have h1 := processLine_eq l (hwt l (by simp))
    by_cases hs : isSummaryLine l = true
    · rw [List.find?_cons_of_pos _ hs]
      simp only [scanLines, h1, hs, if_pos]
    · rw [List.find?_cons_of_neg _ (by simp [hs])]
      simp only [scanLines, h1, hs, if_neg, Bool.not_eq_true]
      exact ih fun x hx => hwt x (by simp [hx])

/-- Claim C3: on bodies whose telemetry fields are well-typed (integer
counts fitting the 32-bit cast, integer durations, boolean `done`),
`extractMetrics` computes exactly the spec's description: scan the lines
from the end backward, stop at the first line parsing as a JSON object
that carries a telemetry field or has `done: true`, return its fields with
absent ones 0 and nanosecond durations divided by 1,000,000; all zeros
when no such line exists (in particular on an empty body), lines that fail
to parse being skipped; the Lean embedding is total, so no exception
escapes. -/
theorem extractMetrics_correct (s : String) (h : bodyWellTyped s = true) :
    extractMetrics s = extractMetricsSpec s := by
  unfold extractMetrics extractMetricsSpec
  apply scanLines_eq_find
  intro l hl
  have hall := (List.all_eq_true.mp h)
  exact hall l (List.mem_reverse.mp hl)

/-- Witness for C3: a garbage-interleaved NDJSON body with a summary line;
the metrics are the summary's, with nanoseconds divided down. -/
theorem extractMetrics_correct_witness :
    extractMetrics body_c3 = extractMetricsSpec body_c3 ∧
      extractMetricsSpec body_c3 = ⟨5, 7, 200, 400⟩ ∧
      extractMetrics "" = ⟨0, 0, 0, 0⟩ :=
  ⟨extractMetrics_correct body_c3 (by decide), by decide, by decide⟩

/-- Inserting below every element of a descending list appends at the end. -/
theorem insertDescById_append (r : LogRow) (l : List LogRow)
    (h : ∀ x ∈ l, r.id < x.id) : insertDescById r l = l ++ [r] := by
  induction l with
  | nil => rfl
  | cons x xs ih =>
    have hx : r.id < x.id := h x (by simp)
    simp only [insertDescById, if_neg (by omega : ¬x.id ≤ r.id)]
    rw [ih fun y hy => h y (by simp [hy])]
    rfl

/-- Sorting by `ORDER BY id DESC` a table already ascending by id reverses it. -/
theorem sortByIdDesc_of_pairwise (l : List LogRow)
    (h : l.Pairwise (fun a b => a.id < b.id)) : sortByIdDesc l = l.reverse := by
  induction l with
  | nil => rfl
  | cons r rs ih =>
    obtain ⟨hr, hrs⟩ := List.pairwise_cons.mp h
    simp only [sortByIdDesc]
    rw [ih hrs,
      insertDescById_append r rs.reverse fun x hx => hr x (List.mem_reverse.mp hx)]
    simp

/-- On a strictly descending list, membership in the first `n` entries is
the same as having fewer than `n` strictly larger elements. -/
theorem mem_take_iff : ∀ (l : List Nat), l.Pairwise (· > ·) → ∀ a ∈ l, ∀ (n : Nat),
    (a ∈ l.take n ↔ (l.filter (fun x => decide (a < x))).length < n) := by
  intro l
  induction l with
  | nil =>
    intro _ a ha
    simp at ha
  | cons b t ih =>
    intro hl a ha n
    have hb : ∀ x ∈ t, x < b := fun x hx => (List.pairwise_cons.mp hl).1 x hx
    have ht : t.Pairwise (· > ·) := (List.pairwise_cons.mp hl).2
    rcases List.mem_cons.mp ha with heq | hat
    · subst heq
      have hfe : ((a :: t).filter (fun x => decide (a < x))) = [] := by
        rw [List.filter_eq_nil_iff]
        intro x hx
        rcases List.mem_cons.mp hx with rfl | hxt
        · simp
        · simp [Nat.not_lt.mpr (Nat.le_of_lt (hb x hxt))]
      rw [hfe]
      cases n with
      | zero => simp
      | succ m => simp [List.take_succ_cons]
    · have hab : a < b := hb a hat
      have hfc : ((b :: t).filter (fun x => decide (a < x))) =
          b :: t.filter (fun x => decide (a < x)) := by
        simp [List.filter_cons, hab]
      rw [hfc]
      cases n with
      | zero => simp
      | succ m =>
        rw [List.take_succ_cons]
        simp only [List.mem_cons, List.length_cons]
        constructor
        · rintro (rfl | hmem)
          · exact absurd rfl (Nat.ne_of_lt hab)
          · exact Nat.succ_lt_succ ((ih ht a hat m).mp hmem)
        · intro hlen
          exact Or.inr ((ih ht a hat m).mpr (Nat.lt_of_succ_lt_succ hlen))

/-- Filtering the id column or filtering the rows gives the same count. -/
theorem length_filter_map_id (rows : List LogRow) (q : Nat → Bool) :
    ((rows.map LogRow.id).filter q).length = (rows.filter (fun x => q x.id)).length := by
  induction rows with
  | nil => rfl
  | cons r rs ih =>
    by_cases h : q r.id = true <;> simp [List.filter_cons, h, ih]

/-- The `DELETE ... NOT IN (SELECT id ... ORDER BY id DESC LIMIT n)` step:
on a table with strictly ascending ids it keeps at most
`kMaxHistoryEntries` rows, and keeps exactly the rows with fewer than
`kMaxHistoryEntries` larger ids — the newest rows by id. -/
theorem pruneHistory_spec (rows : List LogRow)
    (hasc : (rows.map LogRow.id).Pairwise (· < ·)) :
    (pruneHistory rows).length ≤ kMaxHistoryEntries ∧
      ∀ r, r ∈ pruneHistory rows ↔
        (r ∈ rows ∧
          (rows.filter (fun x => decide (r.id < x.id))).length < kMaxHistoryEntries) := by
  have hrows : rows.Pairwise (fun a b => a.id < b.id) := List.pairwise_map.mp hasc
  have hsort : sortByIdDesc rows = rows.reverse := sortByIdDesc_of_pairwise rows hrows
  have hdesc : ((rows.map LogRow.id).reverse).Pairwise (· > ·) := by
    rw [List.pairwise_reverse]
    exact hasc
  have hkeep : ((sortByIdDesc rows).take kMaxHistoryEntries).map LogRow.id =
      ((rows.map LogRow.id).reverse).take kMaxHistoryEntries := by
    rw [hsort, List.map_take, List.map_reverse]
  have hmemk : ∀ r ∈ rows,
      ((((sortByIdDesc rows).take kMaxHistoryEntries).map LogRow.id).contains r.id = true ↔
        (rows.filter (fun x => decide (r.id < x.id))).length < kMaxHistoryEntries) := by
    intro r hr
    have hce : (((sortByIdDesc rows).take kMaxHistoryEntries).map LogRow.id).contains r.id =
        true ↔ r.id ∈ ((sortByIdDesc rows).take kMaxHistoryEntries).map LogRow.id :=
      List.elem_iff
    rw [hce, hkeep]
    have hid : r.id ∈ (rows.map LogRow.id).reverse :=
      List.mem_reverse.mpr (List.mem_map_of_mem LogRow.id hr)
    rw [mem_take_iff _ hdesc r.id hid kMaxHistoryEntries]
    rw [List.filter_reverse, List.length_reverse, length_filter_map_id]
  constructor
  · have hnodup : ((pruneHistory rows).map LogRow.id).Nodup := by
      have hnd : (rows.map LogRow.id).Nodup :=
        hasc.imp fun h => Nat.ne_of_lt h
      have hsub : List.Sublist (pruneHistory rows) rows := by
        simp only [pruneHistory]
        exact List.filter_sublist _
      exact (hsub.map LogRow.id).nodup hnd
    have hsubset : ((pruneHistory rows).map LogRow.id) ⊆
        ((sortByIdDesc rows).take kMaxHistoryEntries).map LogRow.id := by
      intro x hx
      obtain ⟨r, hr, rfl⟩ := List.mem_map.mp hx
      simp only [pruneHistory, List.mem_filter] at hr
      exact List.elem_iff.mp hr.2
    calc (pruneHistory rows).length
        = ((pruneHistory rows).map LogRow.id).length := by simp
      _ ≤ (((sortByIdDesc rows).take kMaxHistoryEntries).map LogRow.id).length :=
          (hnodup.subperm hsubset).length_le
      _ ≤ kMaxHistoryEntries := by
          simp [List.length_take_le]
  · intro r
    simp only [pruneHistory, List.mem_filter]
    constructor
    · rintro ⟨hr, hc⟩
      exact ⟨hr, (hmemk r hr).mp hc⟩
    · rintro ⟨hr, hlt⟩
      exact ⟨hr, (hmemk r hr).mpr hlt⟩

/-- Claim C4: after a completed `logInteractionSync` on a table whose ids
ascend strictly and stay below the autoincrement counter, the requests
table holds at most 100 rows, and a row of the post-insert table is
retained exactly when fewer than 100 rows have a larger id — the rows with
the 100 largest ids. -/
theorem logInteractionSync_history_bound (s : Store) (a : LogArgs)
    (hasc : (s.requests.map LogRow.id).Pairwise (· < ·))
    (hmax : ∀ r ∈ s.requests, r.id < s.next_id) :
    (dbRequests (logInteractionSync ⟨some s⟩ a).1).length ≤ kMaxHistoryEntries ∧
      ∀ r, r ∈ dbRequests (logInteractionSync ⟨some s⟩ a).1 ↔
        (r ∈ s.requests ++ [logRowOf s a] ∧
          ((s.requests ++ [logRowOf s a]).filter
            (fun x => decide (r.id < x.id))).length < kMaxHistoryEntries) := by
  have hasc2 : ((s.requests ++ [logRowOf s a]).map LogRow.id).Pairwise (· < ·) := by
    rw [List.map_append]
    rw [List.pairwise_append]
    refine ⟨hasc, by simp, ?_⟩
    intro x hx y hy
    simp only [List.map_cons, List.map_nil, List.mem_singleton] at hy
    obtain ⟨rr, hrr, rfl⟩ := List.mem_map.mp hx
    rw [hy]
    exact hmax rr hrr
  have hspec := pruneHistory_spec (s.requests ++ [logRowOf s a]) hasc2
  have hdb : dbRequests (logInteractionSync ⟨some s⟩ a).1 =
      pruneHistory (s.requests ++ [logRowOf s a]) := rfl
  rw [hdb]
  exact hspec

/-- Witness for C4 at a concrete two-row store. -/
theorem logInteractionSync_history_bound_witness :
    (dbRequests (logInteractionSync ⟨some store_two⟩ log_args_w).1).length ≤
      kMaxHistoryEntries :=
  (logInteractionSync_history_bound store_two log_args_w (by decide) (by decide)).1

/-- Witness for C5 at a concrete failing upstream. -/
theorem upstream_error_500_witness :
    (handleRequest true db_empty req_plain "/api/generate" 3 up_err 3).code = 500 ∧
      (handleRequest true db_empty req_plain "/api/generate" 3 up_err 3).body =
        "Error forwarding request to Ollama: " ++ "Connection timed out" :=
  ⟨(upstream_error_500 true db_empty req_plain "/api/generate" 3 up_err 3
      "Connection timed out" rfl (by decide)).1,
    (upstream_error_500 true db_empty req_plain "/api/generate" 3 up_err 3
      "Connection timed out" rfl (by decide)).2.1⟩

end SectorFlux
